import Mathlib

/-!
Verification of the events loader (`load.go`) of gomatrixserverlib:
`EventsLoader.LoadAndVerify`, the receipt-time validation pipeline for
federated protocol messages, shallowly embedded in Lean.

The external collaborators consumed by the controller (the untrusted-JSON
parser `NewEventFromUntrustedJSON`, the batched signature verifier
`VerifyEventSignatures`, the auth-chain verifier `VerifyEventAuthChain`,
and the state-authorization verifier `VerifyAuthRulesAtState`) are not
defined in the source file under analysis; following the specification
they are modelled as substitutable capability interfaces, i.e. as
function-valued parameters. A Go `context.Context` carries no data
relevant to the pure semantics of this function: cancellation manifests
to the controller only through collaborators returning errors, so the
context parameter is dropped and a triggered cancellation is modelled as
a collaborator returning the cancellation error.
-/

namespace GMSL

/-- Opaque untrusted byte payload (Go `json.RawMessage`), abstracted to a
code. -/
abbrev RawMessage := Nat

/-- Room / protocol version identifier (Go `RoomVersion`). -/
abbrev RoomVersion := Nat

/-- Event identifier, the value returned by `HeaderedEvent.EventID()`. -/
abbrev EventID := Nat

/-- Go `error` values reaching this file: either an error produced by a
collaborator (opaque, abstracted to a code), or the single error value the
controller itself constructs with `fmt.Errorf` — the bulk signature
verification length mismatch, carrying the two lengths that the Go code
formats into the message. -/
inductive Err where
  | msg (code : Nat)
  | bulkLengthMismatch (failures events : Nat)
deriving DecidableEq

/-- Go `Event`, a parsed event. Only its zero value and its identity are
relevant to the controller, so its fields are abstracted to an identifier
and an opaque content code. The Go zero value is the default value. -/
structure Event where
  eventID : Nat := 0
  content : Nat := 0
deriving DecidableEq

/-- The zero-valued `Event` that stays in `events[i]` for a raw message
that failed to parse (the Go code never assigns `events[i]` then). -/
def defaultEvent : Event := {}

/-- Go `HeaderedEvent`: an event paired with its room version. -/
structure HeaderedEvent where
  roomVer : RoomVersion
  event : Event
deriving DecidableEq

/-- Go method `Event.Headered(roomVer)`. -/
def Event.Headered (e : Event) (ver : RoomVersion) : HeaderedEvent :=
  { roomVer := ver, event := e }

/-- Go method `HeaderedEvent.EventID()`. -/
def HeaderedEvent.EventID (h : HeaderedEvent) : EventID :=
  h.event.eventID

/-- Go `EventLoadResult`: the per-position outcome of loading and
verifying one event. `Event` is a nil-able pointer in Go, hence `Option`;
`Error` is a nil-able `error`. -/
structure EventLoadResult where
  Event : Option HeaderedEvent := none
  Error : Option Err := none
  SoftFail : Bool := false
deriving DecidableEq

/-- Modelled from the spec: the Parser/Redactor collaborator
`NewEventFromUntrustedJSON(raw, roomVer)` (not under src), a pure function
from a raw message and a room version to a parsed event or a parse error.
It is a package-level function in Go, so it is passed to `LoadAndVerify`
as an explicit parameter here. -/
abbrev ParseFn := RawMessage → RoomVersion → Except Err Event

/-- Modelled from the spec: the batched Signature Verifier capability (the
`JSONVerifier` key ring as consumed through `VerifyEventSignatures`, not
under src). It takes the full ordered batch of events and returns either
an infrastructure error or one optional signature error per position. -/
abbrev JSONVerifier := List Event → Except Err (List (Option Err))

/-- Modelled from the spec: the Auth-Chain Provider capability as consumed
through `VerifyEventAuthChain` (not under src): per event, `none` means
the event is authorized by its own chain, `some e` is the rejection (or
fetch/cancellation) error. -/
abbrev AuthChainProvider := HeaderedEvent → Option Err

/-- Modelled from the spec: the State Provider capability as consumed
through `VerifyAuthRulesAtState` (not under src): per event, given the
headered event, its event ID and the strictness flag, `none` means
authorized and `some e` is the rejection (or fetch/cancellation) error. -/
abbrev StateProvider := HeaderedEvent → EventID → Bool → Option Err

/-- Go `VerifyEventSignatures(ctx, events, keyRing)`: the single batched
call of stage 2, routed to the key-ring capability (context dropped). -/
def VerifyEventSignatures (keyRing : JSONVerifier) (events : List Event) :
    Except Err (List (Option Err)) :=
  keyRing events

/-- Go `VerifyEventAuthChain(ctx, h, provider)`: stage 3, routed to the
auth-chain capability (context dropped). -/
def VerifyEventAuthChain (provider : AuthChainProvider) (h : HeaderedEvent) :
    Option Err :=
  provider h

/-- Go `VerifyAuthRulesAtState(ctx, stateProvider, h, eventID, strict)`:
stage 4, routed to the state capability (context dropped). -/
def VerifyAuthRulesAtState (stateProvider : StateProvider) (h : HeaderedEvent)
    (eventID : EventID) ( strict : Bool) : Option Err :=
  stateProvider h eventID strict

/-- Go `EventsLoader`: the room version, the three collaborator
capabilities held as fields, and the (unused) soft-fail flag. -/
structure EventsLoader where
  roomVer : RoomVersion
  keyRing : JSONVerifier
  provider : AuthChainProvider
  stateProvider : StateProvider
  performSoftFailCheck : Bool

/-- Go `NewEventsLoader`. -/
def NewEventsLoader (roomVer : RoomVersion) (keyRing : JSONVerifier)
    (stateProvider : StateProvider) (provider : AuthChainProvider)
    (performSoftFailCheck : Bool) : EventsLoader :=
  { roomVer := roomVer, keyRing := keyRing, provider := provider,
    stateProvider := stateProvider,
    performSoftFailCheck := performSoftFailCheck }

/-- The event placed at a position of the stage-2 batch: the parsed event
on success, the zero value on parse failure (`load.go` line 57 and the
untouched zero value of the `events` slice). -/
def eventOf : Except Err Event → Event
  | .ok ev => ev
  | .error _ => defaultEvent

/-- The result pre-recorded for a position by the first loop of
`LoadAndVerify` (`load.go` lines 48-58): the parse error on failure, the
zero `EventLoadResult` otherwise. -/
def initResultOf : Except Err Event → EventLoadResult
  | .ok _ => {}
  | .error e => { Error := some e }

/-- The `events` slice handed to `VerifyEventSignatures` (`load.go`
lines 47-58). -/
def sigBatch (parse : ParseFn) (ver : RoomVersion)
    (rawEvents : List RawMessage) : List Event :=
  rawEvents.map (fun raw => eventOf (parse raw ver))

/-- The `results` slice as it stands after the first loop of
`LoadAndVerify` (`load.go` lines 43-58). -/
def initialResults (parse : ParseFn) (ver : RoomVersion)
    (rawEvents : List RawMessage) : List EventLoadResult :=
  rawEvents.map (fun raw => initResultOf (parse raw ver))

/-- Pointwise zip of three lists, the shape of the second loop of
`LoadAndVerify`, which walks `results`, `events` and `failures` at the
same index. -/
def zipWith3 (f : α → β → γ → δ) : List α → List β → List γ → List δ
  | a :: as, b :: bs, c :: cs => f a b c :: zipWith3 f as bs cs
  | _, _, _ => []

/-- The body of the second loop of `LoadAndVerify` (`load.go` lines
67-98) for one index `i`: `prev` is `results[i]` after the first loop,
`ev` is `events[i]`, `failure` is `failures[i]`. Each early `continue`
of the Go loop is a branch result here; note that the final write
`results[i] = EventLoadResult{Event: &h}` is unconditional in the Go
code, exactly as in the final else branch here. -/
def loopBody (l : EventsLoader) (prev : EventLoadResult) (ev : Event)
    (failure : Option Err) : EventLoadResult :=
  if failure.isSome && prev.Error.isNone then
    { Error := failure }
  else
    let h := ev.Headered l.roomVer
    if (VerifyEventAuthChain l.provider h).isSome && prev.Error.isNone then
      { Error := VerifyEventAuthChain l.provider h }
    else if (VerifyAuthRulesAtState l.stateProvider h h.EventID true).isSome
        && prev.Error.isNone then
      { Error := VerifyAuthRulesAtState l.stateProvider h h.EventID true }
    else
      { Event := some h }

/-- Go `(*EventsLoader).LoadAndVerify(ctx, rawEvents)` (`load.go` lines
42-103). The first loop is `initialResults`/`sigBatch`; then the single
batched signature call, the infrastructure error returns of lines 60-66,
and the second loop as a pointwise `zipWith3` of `loopBody` (each
`results[i]` is written from `results[i]`, `events[i]`, `failures[i]`
only). The `performSoftFailCheck` branch is absent, as in the source
(line 101 is only a TODO comment). -/
def LoadAndVerify (parse : ParseFn) (l : EventsLoader)
    (rawEvents : List RawMessage) : Except Err (List EventLoadResult) :=
  match VerifyEventSignatures l.keyRing (sigBatch parse l.roomVer rawEvents) with
  | .error e => .error e
  | .ok failures =>
    if failures.length ≠ (sigBatch parse l.roomVer rawEvents).length then
      .error (Err.bulkLengthMismatch failures.length
        (sigBatch parse l.roomVer rawEvents).length)
    else
      .ok (zipWith3 (loopBody l) (initialResults parse l.roomVer rawEvents)
        (sigBatch parse l.roomVer rawEvents) failures)

/-- The outcome of one input position, as computed by the loops of
`LoadAndVerify` for that position: the initial result and staged event
both come from parsing this position's raw message, and `failure` is this
position's entry of the batched signature verdict list. -/
def resultFor (parse : ParseFn) (l : EventsLoader) (raw : RawMessage)
    (failure : Option Err) : EventLoadResult :=
  loopBody l (initResultOf (parse raw l.roomVer))
    (eventOf (parse raw l.roomVer)) failure

/-! Helper lemmas about the list plumbing. -/

theorem get_map' (f : α → β) :
    ∀ (xs : List α) (i : Nat) (h : i < (xs.map f).length) (h' : i < xs.length),
      (xs.map f).get ⟨i, h⟩ = f (xs.get ⟨i, h'⟩)
  | _ :: _, 0, _, _ => rfl
  | _ :: xs, i + 1, h, h' =>
      get_map' f xs i (Nat.lt_of_succ_lt_succ h) (Nat.lt_of_succ_lt_succ h')
  | [], i, _, h' => absurd h' (Nat.not_lt_zero i)

theorem zipWith3_length (f : α → β → γ → δ) :
    ∀ (as : List α) (bs : List β) (cs : List γ),
      bs.length = as.length → cs.length = as.length →
      (zipWith3 f as bs cs).length = as.length := by
  intro as
  induction as with
  | nil =>
    intro bs cs hb hc
    cases bs with
    | nil =>
      cases cs with
      | nil => rfl
      | cons c cs => simp at hc
    | cons b bs => simp at hb
  | cons a as ih =>
    intro bs cs hb hc
    cases bs with
    | nil => simp at hb
    | cons b bs =>
      cases cs with
      | nil => simp at hc
      | cons c cs =>
        simp only [zipWith3, List.length_cons]
        rw [ih bs cs (Nat.succ_injective hb) (Nat.succ_injective hc)]

theorem zipWith3_get (f : α → β → γ → δ) :
    ∀ (as : List α) (bs : List β) (cs : List γ) (i : Nat)
      (hi : i < (zipWith3 f as bs cs).length)
      (ha : i < as.length) (hb : i < bs.length) (hc : i < cs.length),
      (zipWith3 f as bs cs).get ⟨i, hi⟩ =
        f (as.get ⟨i, ha⟩) (bs.get ⟨i, hb⟩) (cs.get ⟨i, hc⟩)
  | _ :: _, _ :: _, _ :: _, 0, _, _, _, _ => rfl
  | _ :: as, _ :: bs, _ :: cs, i + 1, hi, ha, hb, hc =>
      zipWith3_get f as bs cs i (Nat.lt_of_succ_lt_succ hi)
        (Nat.lt_of_succ_lt_succ ha) (Nat.lt_of_succ_lt_succ hb)
        (Nat.lt_of_succ_lt_succ hc)
  | [], _, _, i, _, ha, _, _ => absurd ha (Nat.not_lt_zero i)
  | _ :: _, [], _, i, _, _, hb, _ => absurd hb (Nat.not_lt_zero i)
  | _ :: _, _ :: _, [], i, _, _, _, hc => absurd hc (Nat.not_lt_zero i)

theorem mem_zipWith3 (f : α → β → γ → δ) :
    ∀ (as : List α) (bs : List β) (cs : List γ) (d : δ),
      d ∈ zipWith3 f as bs cs → ∃ a b c, d = f a b c := by
  intro as
  induction as with
  | nil =>
    intro bs cs d hd
    cases bs <;> cases cs <;> simp [zipWith3] at hd
  | cons a as ih =>
    intro bs cs d hd
    cases bs with
    | nil => cases cs <;> simp [zipWith3] at hd
    | cons b bs =>
      cases cs with
      | nil => simp [zipWith3] at hd
      | cons c cs =>
        simp only [zipWith3, List.mem_cons] at hd
        rcases hd with h | h
        · exact ⟨a, b, c, h⟩
        · exact ih bs cs d h

theorem zipWith3_congr (f g : α → β → γ → δ)
    (h : ∀ a b c, f a b c = g a b c) :
    ∀ (as : List α) (bs : List β) (cs : List γ),
      zipWith3 f as bs cs = zipWith3 g as bs cs := by
  intro as
  induction as with
  | nil => intro bs cs; cases bs <;> cases cs <;> simp [zipWith3]
  | cons a as ih =>
    intro bs cs
    cases bs with
    | nil => cases cs <;> simp [zipWith3]
    | cons b bs =>
      cases cs with
      | nil => simp [zipWith3]
      | cons c cs => simp only [zipWith3, h]; rw [ih bs cs]

theorem sigBatch_length (parse : ParseFn) (ver : RoomVersion)
    (raws : List RawMessage) : (sigBatch parse ver raws).length = raws.length := by
  simp [sigBatch]

theorem initialResults_length (parse : ParseFn) (ver : RoomVersion)
    (raws : List RawMessage) :
    (initialResults parse ver raws).length = raws.length := by
  simp [initialResults]

/-! Characterization of `LoadAndVerify`. -/

theorem LoadAndVerify_error_of_sig_error (parse : ParseFn) (l : EventsLoader)
    (raws : List RawMessage) (e : Err)
    (hv : VerifyEventSignatures l.keyRing (sigBatch parse l.roomVer raws) = .error e) :
    LoadAndVerify parse l raws = .error e := by
  unfold LoadAndVerify
  rw [hv]

theorem LoadAndVerify_error_of_len_mismatch (parse : ParseFn) (l : EventsLoader)
    (raws : List RawMessage) (fs : List (Option Err))
    (hv : VerifyEventSignatures l.keyRing (sigBatch parse l.roomVer raws) = .ok fs)
    (hlen : fs.length ≠ raws.length) :
    LoadAndVerify parse l raws =
      .error (Err.bulkLengthMismatch fs.length raws.length) := by
  unfold LoadAndVerify
  rw [hv]
  simp [sigBatch_length, hlen]

theorem LoadAndVerify_ok_of (parse : ParseFn) (l : EventsLoader)
    (raws : List RawMessage) (fs : List (Option Err))
    (hv : VerifyEventSignatures l.keyRing (sigBatch parse l.roomVer raws) = .ok fs)
    (hlen : fs.length = raws.length) :
    LoadAndVerify parse l raws =
      .ok (zipWith3 (loopBody l) (initialResults parse l.roomVer raws)
        (sigBatch parse l.roomVer raws) fs) := by
  unfold LoadAndVerify
  rw [hv]
  simp [sigBatch_length, hlen]

theorem LoadAndVerify_ok_inv (parse : ParseFn) (l : EventsLoader)
    (raws : List RawMessage) (rs : List EventLoadResult)
    (h : LoadAndVerify parse l raws = .ok rs) :
    ∃ fs, VerifyEventSignatures l.keyRing (sigBatch parse l.roomVer raws) = .ok fs ∧
      fs.length = raws.length ∧
      rs = zipWith3 (loopBody l) (initialResults parse l.roomVer raws)
        (sigBatch parse l.roomVer raws) fs := by
  unfold LoadAndVerify at h
  cases hv : VerifyEventSignatures l.keyRing (sigBatch parse l.roomVer raws) with
  | error e => rw [hv] at h; simp at h
  | ok fs =>
    rw [hv] at h
    by_cases hl : fs.length = (sigBatch parse l.roomVer raws).length
    · refine ⟨fs, rfl, ?_, ?_⟩
      · rw [hl, sigBatch_length]
      · simp only [hl, ne_eq, not_true_eq_false, if_false] at h
        exact (Except.ok.inj h).symm
    · simp only [hl, ne_eq, not_false_eq_true, if_true] at h
      simp at h

theorem results_get (parse : ParseFn) (l : EventsLoader)
    (raws : List RawMessage) (fs : List (Option Err))
    (i : Nat) (hi : i < raws.length) (hif : i < fs.length)
    (hir : i < (zipWith3 (loopBody l) (initialResults parse l.roomVer raws)
      (sigBatch parse l.roomVer raws) fs).length) :
    (zipWith3 (loopBody l) (initialResults parse l.roomVer raws)
      (sigBatch parse l.roomVer raws) fs).get ⟨i, hir⟩ =
      resultFor parse l (raws.get ⟨i, hi⟩) (fs.get ⟨i, hif⟩) := by
  rw [zipWith3_get (loopBody l) _ _ _ i hir
    (by rw [initialResults_length]; exact hi)
    (by rw [sigBatch_length]; exact hi) hif]
  simp only [initialResults, sigBatch]
  rw [get_map' _ raws i _ hi, get_map' _ raws i _ hi]
  rfl

/-! Shape of the per-position loop body. -/

theorem loopBody_shape (l : EventsLoader) (prev : EventLoadResult)
    (ev : Event) (failure : Option Err) :
    ((loopBody l prev ev failure).Event = none ∧
      (loopBody l prev ev failure).Error.isSome = true) ∨
    ((loopBody l prev ev failure).Event.isSome = true ∧
      (loopBody l prev ev failure).Error = none) := by
  unfold loopBody
  by_cases h1 : (failure.isSome && prev.Error.isNone) = true
  · rw [if_pos h1]
    exact Or.inl ⟨rfl, (Bool.and_eq_true _ _ |>.mp h1).1⟩
  · rw [if_neg h1]
    dsimp only
    by_cases h2 : ((VerifyEventAuthChain l.provider (ev.Headered l.roomVer)).isSome
        && prev.Error.isNone) = true
    · rw [if_pos h2]
      exact Or.inl ⟨rfl, (Bool.and_eq_true _ _ |>.mp h2).1⟩
    · rw [if_neg h2]
      by_cases h3 : ((VerifyAuthRulesAtState l.stateProvider (ev.Headered l.roomVer)
          (ev.Headered l.roomVer).EventID true).isSome && prev.Error.isNone) = true
      · rw [if_pos h3]
        exact Or.inl ⟨rfl, (Bool.and_eq_true _ _ |>.mp h3).1⟩
      · rw [if_neg h3]
        exact Or.inr ⟨rfl, rfl⟩

theorem loopBody_softFail (l : EventsLoader) (prev : EventLoadResult)
    (ev : Event) (failure : Option Err) :
    (loopBody l prev ev failure).SoftFail = false := by
  unfold loopBody
  by_cases h1 : (failure.isSome && prev.Error.isNone) = true
  · rw [if_pos h1]
  · rw [if_neg h1]
    dsimp only
    by_cases h2 : ((VerifyEventAuthChain l.provider (ev.Headered l.roomVer)).isSome
        && prev.Error.isNone) = true
    · rw [if_pos h2]
    · rw [if_neg h2]
      by_cases h3 : ((VerifyAuthRulesAtState l.stateProvider (ev.Headered l.roomVer)
          (ev.Headered l.roomVer).EventID true).isSome && prev.Error.isNone) = true
      · rw [if_pos h3]
      · rw [if_neg h3]

/-! Congruence lemmas: which parts of the loader the call depends on. -/

theorem loopBody_strict_congr (v : RoomVersion) (k k' : JSONVerifier)
    (p : AuthChainProvider) (sp sp' : StateProvider) (b b' : Bool)
    (hsp : ∀ ev id, sp' ev id true = sp ev id true)
    (prev : EventLoadResult) (ev : Event) (failure : Option Err) :
    loopBody ⟨v, k', p, sp', b'⟩ prev ev failure =
      loopBody ⟨v, k, p, sp, b⟩ prev ev failure := by
  unfold loopBody VerifyEventAuthChain VerifyAuthRulesAtState
  dsimp only
  rw [hsp]

theorem LoadAndVerify_congr_strict (parse : ParseFn) (v : RoomVersion)
    (k : JSONVerifier) (p : AuthChainProvider) (sp sp' : StateProvider)
    (b b' : Bool) (raws : List RawMessage)
    (hsp : ∀ ev id, sp' ev id true = sp ev id true) :
    LoadAndVerify parse ⟨v, k, p, sp', b'⟩ raws =
      LoadAndVerify parse ⟨v, k, p, sp, b⟩ raws := by
  unfold LoadAndVerify
  dsimp only
  cases hv : VerifyEventSignatures k (sigBatch parse v raws) with
  | error e => rfl
  | ok fs =>
    dsimp only
    by_cases hl : fs.length = (sigBatch parse v raws).length
    · simp only [hl, ne_eq, not_true_eq_false, if_false]
      exact congrArg Except.ok
        (zipWith3_congr _ _ (loopBody_strict_congr v k k p sp sp' b b' hsp) _ _ _)
    · simp only [hl, ne_eq, not_false_eq_true, if_true]

theorem LoadAndVerify_keyRing_congr (parse : ParseFn) (v : RoomVersion)
    (k1 k2 : JSONVerifier) (p : AuthChainProvider) (sp : StateProvider)
    (b1 b2 : Bool) (raws : List RawMessage)
    (hk : k1 (sigBatch parse v raws) = k2 (sigBatch parse v raws)) :
    LoadAndVerify parse ⟨v, k1, p, sp, b1⟩ raws =
      LoadAndVerify parse ⟨v, k2, p, sp, b2⟩ raws := by
  unfold LoadAndVerify
  dsimp only
  rw [show VerifyEventSignatures k1 (sigBatch parse v raws) =
    VerifyEventSignatures k2 (sigBatch parse v raws) from hk]
  cases hv : VerifyEventSignatures k2 (sigBatch parse v raws) with
  | error e => rfl
  | ok fs =>
    dsimp only
    by_cases hl : fs.length = (sigBatch parse v raws).length
    · simp only [hl, ne_eq, not_true_eq_false, if_false]
      exact congrArg Except.ok
        (zipWith3_congr _ _
          (loopBody_strict_congr v k2 k1 p sp sp b2 b1 (fun _ _ => rfl)) _ _ _)
    · simp only [hl, ne_eq, not_false_eq_true, if_true]

/-! Concrete collaborator instances, used by witnesses and
counterexamples. -/

/-- A parser that accepts even-coded raw messages and rejects odd ones. -/
def parseEven : ParseFn := fun r _ =>
  if r % 2 = 0 then .ok { eventID := r, content := r } else .error (Err.msg r)

/-- A parser that accepts every raw message. -/
def parseAll : ParseFn := fun r _ => .ok { eventID := r, content := r }

/-- A parser that rejects every raw message. -/
def parseNone : ParseFn := fun r _ => .error (Err.msg r)

/-- A second, separately defined parser extensionally equal to
`parseAll`. -/
def parseAllAgain : ParseFn := fun r _ =>
  .ok { eventID := r + 0, content := r + 0 }

/-- A signature verifier that accepts every position. -/
def sigOkAll : JSONVerifier := fun evs => .ok (evs.map (fun _ => none))

/-- A signature verifier that rejects every position. -/
def sigRejectAll : JSONVerifier := fun evs =>
  .ok (evs.map (fun _ => some (Err.msg 102)))

/-- A signature verifier that fails with an infrastructure error, as a
cancelled context would make it do. -/
def sigInfraFail : JSONVerifier := fun _ => .error (Err.msg 100)

/-- A signature verifier stubbed to always return two verdicts. -/
def sigTwoVerdicts : JSONVerifier := fun _ => .ok [none, none]

/-- An auth-chain verifier that accepts every event. -/
def chainOkAll : AuthChainProvider := fun _ => none

/-- An auth-chain verifier that rejects every event. -/
def chainRejectAll : AuthChainProvider := fun _ => some (Err.msg 103)

/-- An auth-chain verifier that returns the cancellation error for every
event, the observable behavior of a cancelled context during stage 3. -/
def chainCanceled : AuthChainProvider := fun _ => some (Err.msg 99)

/-- A state-authorization verifier that accepts every event. -/
def stateOkAll : StateProvider := fun _ _ _ => none

/-- A state-authorization verifier that accepts in strict mode and rejects
in lenient mode: it distinguishes the two strictness arguments. -/
def stateStrictOnly : StateProvider := fun _ _ b =>
  if b then none else some (Err.msg 104)

/-- An all-accepting loader at room version 7. -/
def loaderOk : EventsLoader :=
  NewEventsLoader 7 sigOkAll stateOkAll chainOkAll false

/-! The claims. -/

/-- C1: for every call on a collection of raw messages, `LoadAndVerify`
either fails with a single error carrying no outcomes (the `.error` arm of
`Except` by construction), or returns exactly one outcome per raw message,
positionally aligned: the outcome at index `i` is computed from the raw
message at index `i` and that position's signature verdict alone. -/
theorem C1_length_and_order (parse : ParseFn) (l : EventsLoader)
    (raws : List RawMessage) (rs : List EventLoadResult) (fs : List (Option Err))
    (h : LoadAndVerify parse l raws = .ok rs)
    (hv : VerifyEventSignatures l.keyRing (sigBatch parse l.roomVer raws) = .ok fs) :
    rs.length = raws.length ∧
    ∀ (i : Nat) (hi : i < raws.length) (hir : i < rs.length) (hif : i < fs.length),
      rs.get ⟨i, hir⟩ = resultFor parse l (raws.get ⟨i, hi⟩) (fs.get ⟨i, hif⟩) := by
  obtain ⟨fs1, hv1, hlen1, hrs⟩ := LoadAndVerify_ok_inv parse l raws rs h
  have e1 : fs = fs1 := Except.ok.inj (hv.symm.trans hv1)
  subst e1
  subst hrs
  constructor
  · have hz := zipWith3_length (loopBody l) (initialResults parse l.roomVer raws)
      (sigBatch parse l.roomVer raws) fs
      (by rw [sigBatch_length, initialResults_length])
      (by rw [hlen1, initialResults_length])
    rw [hz, initialResults_length]
  · intro i hi hir hif
    exact results_get parse l raws fs i hi hif hir

/-- Witness for C1, both at the empty batch (N = 0) and at a two-message
batch whose second message fails to parse. -/
theorem C1_witness :
    ([] : List EventLoadResult).length = 0 ∧
    ([{ Event := some (Event.Headered { eventID := 0, content := 0 } 7) },
      { Event := some (Event.Headered defaultEvent 7) }] :
      List EventLoadResult).length = 2 ∧
    ([{ Event := some (Event.Headered { eventID := 0, content := 0 } 7) },
      { Event := some (Event.Headered defaultEvent 7) }] :
      List EventLoadResult).get ⟨1, by decide⟩ =
      resultFor parseEven loaderOk 1 none :=
  ⟨(C1_length_and_order parseAll loaderOk [] [] [] rfl rfl).1,
   (C1_length_and_order parseEven loaderOk [0, 1]
      [{ Event := some (Event.Headered { eventID := 0, content := 0 } 7) },
        { Event := some (Event.Headered defaultEvent 7) }]
      [none, none] rfl rfl).1,
   (C1_length_and_order parseEven loaderOk [0, 1]
      [{ Event := some (Event.Headered { eventID := 0, content := 0 } 7) },
        { Event := some (Event.Headered defaultEvent 7) }]
      [none, none] rfl rfl).2 1 (by decide) (by decide) (by decide)⟩

/-- C2, evaluated at the failing input: a batch whose only raw message
fails parsing. Because each guarded `continue` of the Go loop sits inside
the inner `if results[i].Error == nil` check, a position that already
holds a parse error falls through every stage guard and reaches the
unconditional final write `results[i] = EventLoadResult{Event: &h}`: the
parse error is replaced by an accepted zero-valued event, even though the
signature, chain and state collaborators all reject it here. -/
theorem C2_parse_error_overwritten :
    LoadAndVerify parseNone
      (NewEventsLoader 7 sigRejectAll stateOkAll chainRejectAll false) [4] =
      .ok [{ Event := some (Event.Headered defaultEvent 7) }] := rfl

/-- C3: if the batched signature verifier fails outright, or returns a
verdict collection whose length differs from the batch it was given,
`LoadAndVerify` returns an error (and, by the shape of `Except`, no
outcome collection). -/
theorem C3_infrastructure_abort (parse : ParseFn) (l : EventsLoader)
    (raws : List RawMessage) :
    (∀ e, VerifyEventSignatures l.keyRing (sigBatch parse l.roomVer raws) = .error e →
      LoadAndVerify parse l raws = .error e) ∧
    (∀ fs, VerifyEventSignatures l.keyRing (sigBatch parse l.roomVer raws) = .ok fs →
      fs.length ≠ raws.length →
      LoadAndVerify parse l raws =
        .error (Err.bulkLengthMismatch fs.length raws.length)) :=
  ⟨fun e hv => LoadAndVerify_error_of_sig_error parse l raws e hv,
   fun fs hv hlen => LoadAndVerify_error_of_len_mismatch parse l raws fs hv hlen⟩

/-- Witness for C3: a batch of 3 events with the signature collaborator
stubbed to return 2 verdicts makes the whole call fail. -/
theorem C3_witness :
    LoadAndVerify parseAll
      (NewEventsLoader 7 sigTwoVerdicts stateOkAll chainOkAll false) [0, 2, 4] =
      .error (Err.bulkLengthMismatch 2 3) :=
  (C3_infrastructure_abort parseAll
    (NewEventsLoader 7 sigTwoVerdicts stateOkAll chainOkAll false) [0, 2, 4]).2
    [none, none] rfl (by decide)

/-- C4, refuted at a concrete input: cancellation hitting the in-flight
auth-chain stage — observable in the controller only as the stage-3
collaborator returning the cancellation error for every event — does not
make the call fail: a complete outcome collection is returned with the
cancellation error recorded per position. -/
theorem C4_canceled_chain_returns_ok :
    LoadAndVerify parseAll
      (NewEventsLoader 7 sigOkAll stateOkAll chainCanceled false) [0] =
      .ok [{ Error := some (Err.msg 99) }] := rfl

/-- C4 as amended: an error return of the batched signature stage (which
is how a cancellation triggered during that stage surfaces) aborts the
whole call with that error, while errors returned by the per-event
auth-chain or state-authorization collaborators (which is how a
cancellation triggered during those stages surfaces) are recorded
per-position and the call still returns a full outcome collection. -/
theorem C4_cancellation_amended (parse : ParseFn) (l : EventsLoader)
    (raws : List RawMessage) :
    (∀ e, VerifyEventSignatures l.keyRing (sigBatch parse l.roomVer raws) = .error e →
      LoadAndVerify parse l raws = .error e) ∧
    (∀ fs, VerifyEventSignatures l.keyRing (sigBatch parse l.roomVer raws) = .ok fs →
      fs.length = raws.length →
      LoadAndVerify parse l raws =
        .ok (zipWith3 (loopBody l) (initialResults parse l.roomVer raws)
          (sigBatch parse l.roomVer raws) fs)) :=
  ⟨fun e hv => LoadAndVerify_error_of_sig_error parse l raws e hv,
   fun fs hv hlen => LoadAndVerify_ok_of parse l raws fs hv hlen⟩

/-- Witness for C4 (amended): a cancelled batched signature stage aborts
the call; a cancelled auth-chain stage still yields a full outcome
collection. -/
theorem C4_witness :
    LoadAndVerify parseAll
      (NewEventsLoader 7 sigInfraFail stateOkAll chainOkAll false) [0] =
      .error (Err.msg 100) ∧
    LoadAndVerify parseAll
      (NewEventsLoader 7 sigOkAll stateOkAll chainCanceled false) [0, 2] =
      .ok (zipWith3
        (loopBody (NewEventsLoader 7 sigOkAll stateOkAll chainCanceled false))
        (initialResults parseAll 7 [0, 2]) (sigBatch parseAll 7 [0, 2])
        [none, none]) :=
  ⟨(C4_cancellation_amended parseAll
      (NewEventsLoader 7 sigInfraFail stateOkAll chainOkAll false) [0]).1
      (Err.msg 100) rfl,
   (C4_cancellation_amended parseAll
      (NewEventsLoader 7 sigOkAll stateOkAll chainCanceled false) [0, 2]).2
      [none, none] rfl rfl⟩

/-- C5: the soft-fail lenient path is not wired into the controller: the
call's value is unchanged under any change of the state collaborator's
lenient-mode (strictness `false`) behavior and of the
`performSoftFailCheck` flag — so only strict mode is ever consulted — and
no returned outcome ever has `SoftFail` set. -/
theorem C5_soft_fail_not_wired (parse : ParseFn) (l l' : EventsLoader)
    (raws : List RawMessage)
    (hver : l'.roomVer = l.roomVer) (hk : l'.keyRing = l.keyRing)
    (hprov : l'.provider = l.provider)
    (hsp : ∀ ev id, l'.stateProvider ev id true = l.stateProvider ev id true) :
    LoadAndVerify parse l' raws = LoadAndVerify parse l raws ∧
    (∀ rs, LoadAndVerify parse l raws = .ok rs → ∀ r ∈ rs, r.SoftFail = false) := by
  constructor
  · cases l with
    | mk v k p sp b =>
    cases l' with
    | mk v' k' p' sp' b' =>
    have h1 : v' = v := hver
    have h2 : k' = k := hk
    have h3 : p' = p := hprov
    rw [h1, h2, h3]
    exact LoadAndVerify_congr_strict parse v k p sp sp' b b' raws hsp
  · intro rs hok r hr
    obtain ⟨fs, hv, hlen, hrs⟩ := LoadAndVerify_ok_inv parse l raws rs hok
    subst hrs
    obtain ⟨a, ev, c, rfl⟩ := mem_zipWith3 _ _ _ _ r hr
    exact loopBody_softFail l a ev c

/-- Witness for C5: a loader whose state collaborator rejects in lenient
mode and whose flag is set gives the same results as the all-accepting
strict loader, and the returned outcome is not soft-failed. -/
theorem C5_witness :
    LoadAndVerify parseAll
      (NewEventsLoader 7 sigOkAll stateStrictOnly chainOkAll true) [0] =
      LoadAndVerify parseAll loaderOk [0] ∧
    ({ Event := some (Event.Headered { eventID := 0, content := 0 } 7) } :
      EventLoadResult).SoftFail = false := by
  have h := C5_soft_fail_not_wired parseAll loaderOk
    (NewEventsLoader 7 sigOkAll stateStrictOnly chainOkAll true) [0]
    rfl rfl rfl (fun ev id => rfl)
  exact ⟨h.1, h.2
    [{ Event := some (Event.Headered { eventID := 0, content := 0 } 7) }] rfl
    { Event := some (Event.Headered { eventID := 0, content := 0 } 7) }
    (by decide)⟩

/-- C6: a per-event rejection at any stage never aborts the call: whenever
the batched signature stage returns a well-sized verdict collection —
whatever the parse failures and the per-event signature, chain and state
verdicts are — `LoadAndVerify` returns a full-length outcome collection,
so an error return can only come from an infrastructure failure of the
batched stage. -/
theorem C6_no_abort_on_event_rejection (parse : ParseFn) (l : EventsLoader)
    (raws : List RawMessage) (fs : List (Option Err))
    (hv : VerifyEventSignatures l.keyRing (sigBatch parse l.roomVer raws) = .ok fs)
    (hlen : fs.length = raws.length) :
    LoadAndVerify parse l raws =
      .ok (zipWith3 (loopBody l) (initialResults parse l.roomVer raws)
        (sigBatch parse l.roomVer raws) fs) ∧
    (zipWith3 (loopBody l) (initialResults parse l.roomVer raws)
      (sigBatch parse l.roomVer raws) fs).length = raws.length := by
  refine ⟨LoadAndVerify_ok_of parse l raws fs hv hlen, ?_⟩
  have hz := zipWith3_length (loopBody l) (initialResults parse l.roomVer raws)
    (sigBatch parse l.roomVer raws) fs
    (by rw [sigBatch_length, initialResults_length])
    (by rw [hlen, initialResults_length])
  rw [hz, initialResults_length]

/-- Witness for C6: a batch whose first message is rejected by every
per-event stage and whose second fails parsing still yields a full
2-outcome collection. -/
theorem C6_witness :
    LoadAndVerify parseEven
      (NewEventsLoader 7 sigRejectAll stateOkAll chainRejectAll false) [0, 1] =
      .ok (zipWith3
        (loopBody (NewEventsLoader 7 sigRejectAll stateOkAll chainRejectAll false))
        (initialResults parseEven 7 [0, 1]) (sigBatch parseEven 7 [0, 1])
        [some (Err.msg 102), some (Err.msg 102)]) ∧
    (zipWith3
      (loopBody (NewEventsLoader 7 sigRejectAll stateOkAll chainRejectAll false))
      (initialResults parseEven 7 [0, 1]) (sigBatch parseEven 7 [0, 1])
      [some (Err.msg 102), some (Err.msg 102)]).length = 2 :=
  C6_no_abort_on_event_rejection parseEven
    (NewEventsLoader 7 sigRejectAll stateOkAll chainRejectAll false) [0, 1]
    [some (Err.msg 102), some (Err.msg 102)] rfl rfl

/-- C7: the batch handed to the single batched signature call holds one
entry per raw message, with the zero-valued placeholder at every
parse-failed position, and the call consumes the signature capability only
through its value on that one full ordered batch: two loaders whose key
rings agree on `sigBatch` (and agree elsewhere) produce identical
results. -/
theorem C7_placeholder_and_single_batch (parse : ParseFn) (l : EventsLoader)
    (raws : List RawMessage) :
    (sigBatch parse l.roomVer raws).length = raws.length ∧
    (∀ (i : Nat) (hi : i < raws.length)
      (hib : i < (sigBatch parse l.roomVer raws).length) (e : Err),
      parse (raws.get ⟨i, hi⟩) l.roomVer = .error e →
      (sigBatch parse l.roomVer raws).get ⟨i, hib⟩ = defaultEvent) ∧
    (∀ (k1 k2 : JSONVerifier) (b1 b2 : Bool),
      k1 (sigBatch parse l.roomVer raws) = k2 (sigBatch parse l.roomVer raws) →
      LoadAndVerify parse
        (NewEventsLoader l.roomVer k1 l.stateProvider l.provider b1) raws =
      LoadAndVerify parse
        (NewEventsLoader l.roomVer k2 l.stateProvider l.provider b2) raws) := by
  refine ⟨sigBatch_length parse l.roomVer raws, ?_, ?_⟩
  · intro i hi hib e he
    simp only [sigBatch]
    rw [get_map' _ raws i _ hi]
    rw [he]
    rfl
  · intro k1 k2 b1 b2 hk
    exact LoadAndVerify_keyRing_congr parse l.roomVer k1 k2 l.provider
      l.stateProvider b1 b2 raws hk

/-- Witness for C7 at a two-message batch whose second message fails to
parse, with two observably different signature capabilities that agree on
this batch. -/
theorem C7_witness :
    (sigBatch parseEven 7 [0, 1]).length = 2 ∧
    (sigBatch parseEven 7 [0, 1]).get ⟨1, by decide⟩ = defaultEvent ∧
    LoadAndVerify parseEven
      (NewEventsLoader 7 sigOkAll stateOkAll chainOkAll true) [0, 1] =
    LoadAndVerify parseEven
      (NewEventsLoader 7 sigTwoVerdicts stateOkAll chainOkAll false) [0, 1] := by
  have h := C7_placeholder_and_single_batch parseEven loaderOk [0, 1]
  exact ⟨h.1, h.2.1 1 (by decide) (by decide) (Err.msg 1) rfl,
    h.2.2 sigOkAll sigTwoVerdicts true false rfl⟩

/-- C8: independence across positions: whenever two calls (a batch with a
deliberately malformed event and the corresponding batch without it) see
the same raw message and the same per-position signature verdict at
positions `j` and `j'` respectively, those positions receive the same
outcome, whatever happens at every other position. -/
theorem C8_independence (parse : ParseFn) (l : EventsLoader)
    (raws raws' : List RawMessage) (fs fs' : List (Option Err))
    (rs rs' : List EventLoadResult)
    (hv : VerifyEventSignatures l.keyRing (sigBatch parse l.roomVer raws) = .ok fs)
    (hv' : VerifyEventSignatures l.keyRing (sigBatch parse l.roomVer raws') = .ok fs')
    (hok : LoadAndVerify parse l raws = .ok rs)
    (hok' : LoadAndVerify parse l raws' = .ok rs')
    (j j' : Nat) (hj : j < raws.length) (hj' : j' < raws'.length)
    (hjf : j < fs.length) (hj'f : j' < fs'.length)
    (hjr : j < rs.length) (hj'r : j' < rs'.length)
    (hraw : raws.get ⟨j, hj⟩ = raws'.get ⟨j', hj'⟩)
    (hfs : fs.get ⟨j, hjf⟩ = fs'.get ⟨j', hj'f⟩) :
    rs.get ⟨j, hjr⟩ = rs'.get ⟨j', hj'r⟩ := by
  obtain ⟨fs1, hv1, hlen1, hrs⟩ := LoadAndVerify_ok_inv parse l raws rs hok
  obtain ⟨fs2, hv2, hlen2, hrs'⟩ := LoadAndVerify_ok_inv parse l raws' rs' hok'
  have e1 : fs = fs1 := Except.ok.inj (hv.symm.trans hv1)
  have e2 : fs' = fs2 := Except.ok.inj (hv'.symm.trans hv2)
  subst e1
  subst e2
  subst hrs
  subst hrs'
  rw [results_get parse l raws fs j hj hjf,
    results_get parse l raws' fs' j' hj' hj'f]
  rw [hraw, hfs]

/-- Witness for C8: position 2 of the batch `[0, 1, 2]` (whose middle
message is malformed) receives the same outcome as position 1 of the
batch `[0, 2]` without it. -/
theorem C8_witness :
    ([{ Event := some (Event.Headered { eventID := 0, content := 0 } 7) },
      { Event := some (Event.Headered defaultEvent 7) },
      { Event := some (Event.Headered { eventID := 2, content := 2 } 7) }] :
      List EventLoadResult).get ⟨2, by decide⟩ =
    ([{ Event := some (Event.Headered { eventID := 0, content := 0 } 7) },
      { Event := some (Event.Headered { eventID := 2, content := 2 } 7) }] :
      List EventLoadResult).get ⟨1, by decide⟩ :=
  C8_independence parseEven loaderOk [0, 1, 2] [0, 2]
    [none, none, none] [none, none]
    [{ Event := some (Event.Headered { eventID := 0, content := 0 } 7) },
      { Event := some (Event.Headered defaultEvent 7) },
      { Event := some (Event.Headered { eventID := 2, content := 2 } 7) }]
    [{ Event := some (Event.Headered { eventID := 0, content := 0 } 7) },
      { Event := some (Event.Headered { eventID := 2, content := 2 } 7) }]
    rfl rfl rfl rfl 2 1 (by decide) (by decide) (by decide) (by decide)
    (by decide) (by decide) rfl rfl

/-- C9: every outcome of a successfully returned collection has exactly
one of its `Event` and `Error` fields set — never both, never neither. -/
theorem C9_event_xor_error (parse : ParseFn) (l : EventsLoader)
    (raws : List RawMessage) (rs : List EventLoadResult)
    (h : LoadAndVerify parse l raws = .ok rs)
    (r : EventLoadResult) (hr : r ∈ rs) :
    (r.Event = none ∧ r.Error.isSome = true) ∨
    (r.Event.isSome = true ∧ r.Error = none) := by
  obtain ⟨fs, hv, hlen, hrs⟩ := LoadAndVerify_ok_inv parse l raws rs h
  subst hrs
  obtain ⟨a, ev, c, rfl⟩ := mem_zipWith3 _ _ _ _ r hr
  exact loopBody_shape l a ev c

/-- Witness for C9 at an outcome with a recorded signature error. -/
theorem C9_witness :
    (({ Error := some (Err.msg 102) } : EventLoadResult).Event = none ∧
      ({ Error := some (Err.msg 102) } : EventLoadResult).Error.isSome = true) ∨
    (({ Error := some (Err.msg 102) } : EventLoadResult).Event.isSome = true ∧
      ({ Error := some (Err.msg 102) } : EventLoadResult).Error = none) :=
  C9_event_xor_error parseAll
    (NewEventsLoader 7 sigRejectAll stateOkAll chainOkAll false) [0]
    [{ Error := some (Err.msg 102) }] rfl { Error := some (Err.msg 102) }
    (by decide)

/-- C10: the call is deterministic and extensional in its inputs: two
invocations with equal raw input collections, equal room versions, and
collaborators returning identical verdicts everywhere (the flags may even
differ, the flag being unused) produce identical outcome collections. -/
theorem C10_deterministic (parse parse' : ParseFn) (l l' : EventsLoader)
    (raws raws' : List RawMessage)
    (hparse : ∀ r v, parse' r v = parse r v)
    (hver : l'.roomVer = l.roomVer)
    (hk : ∀ es, l'.keyRing es = l.keyRing es)
    (hprov : ∀ ev, l'.provider ev = l.provider ev)
    (hsp : ∀ ev id b, l'.stateProvider ev id b = l.stateProvider ev id b)
    (hraws : raws' = raws) :
    LoadAndVerify parse' l' raws' = LoadAndVerify parse l raws := by
  subst hraws
  have hp : parse' = parse := funext fun r => funext fun v => hparse r v
  subst hp
  cases l with
  | mk v k p sp b =>
  cases l' with
  | mk v' k' p' sp' b' =>
  have h1 : v' = v := hver
  have h2 : k' = k := funext hk
  have h3 : p' = p := funext hprov
  have h4 : sp' = sp :=
    funext fun ev => funext fun id => funext fun bb => hsp ev id bb
  rw [h1, h2, h3, h4]
  exact LoadAndVerify_congr_strict parse' v k p sp sp b b' raws' (fun _ _ => rfl)

/-- Witness for C10: a textually different parser and a loader with the
opposite flag give the same outcome collection. -/
theorem C10_witness :
    LoadAndVerify parseAllAgain
      (NewEventsLoader 7 sigOkAll stateOkAll chainOkAll true) [0, 2] =
    LoadAndVerify parseAll loaderOk [0, 2] :=
  C10_deterministic parseAll parseAllAgain loaderOk
    (NewEventsLoader 7 sigOkAll stateOkAll chainOkAll true) [0, 2] [0, 2]
    (fun _ _ => rfl) rfl (fun _ => rfl) (fun _ => rfl)
    (fun _ _ _ => rfl) rfl

end GMSL
